import Mathlib

/-!
Verification of the search launcher frontend (`src/hooks/useSearch.ts`,
`src/components/ResultGroup.tsx`, `src/components/SearchBar.tsx`,
`src/hooks/useKeyboard.ts`, `src/utils/highlight.tsx`) and of the
spec-described backend merge step, as shallow Lean embeddings.
-/

namespace BetterFinder

/-- The fixed result-type tags (`ResultType` in `src/types`), as listed in the
spec §3 and used by `ResultGroup.tsx` and `ResultItem.tsx`. -/
inductive RType where
  | File
  | Application
  | QuickAction
  | Calculator
  | Clipboard
  | Bookmark
  | RecentFile
  | WebSearch
deriving DecidableEq, Repr

/-- A search result as far as the frontend inspects it: its `resultType` tag
plus an opaque identity `rid` distinguishing distinct result values.  All other
fields (`title`, `subtitle`, `icon`, `metadata`, `action`) are carried opaquely
by the frontend and are irrelevant to the claims about it. -/
structure GRes where
  rtype : RType
  rid : Nat
deriving DecidableEq, Repr

/-! ## State machine for `performSearch` (`src/hooks/useSearch.ts`, lines 33–76)

The hook keeps React state `results`, `isLoading`, `error` and a mutable ref
`abortControllerRef`.  Each `performSearch` call synchronously aborts the
controller currently in the ref and installs a fresh one; controllers are
modelled by the counter value at their creation.  The `await invoke(...)`
suspension is modelled by splitting a search into a `start` event and a later
`resolveOk`/`resolveErr` event; crucially, the post-await guards re-read
`abortControllerRef.current.signal.aborted` — the *currently installed*
controller's flag — exactly as the source does, rather than the flag of the
controller that belonged to this search. -/

/-- JavaScript `String.prototype.trim()`: strip leading and trailing
whitespace.  Query strings are embedded as `List Char` throughout so that the
embedding evaluates by kernel reduction. -/
def jsTrim (s : List Char) : List Char :=
  ((s.dropWhile Char.isWhitespace).reverse.dropWhile Char.isWhitespace).reverse

/-- React state plus the abort-controller ref of `useSearch`.  `dispatched`
records the queries sent to the backend via `invoke('search_query', …)`. -/
structure SState where
  ctrlCounter : Nat
  current : Option Nat
  aborted : List Nat
  results : List GRes
  isLoading : Bool
  error : Option String
  dispatched : List (List Char)
deriving DecidableEq, Repr

/-- Model of `abortControllerRef.current.signal.aborted` as read after the `await`:
the flag of the controller installed *now* (not of this search's own one). -/
def abortedCurrent (s : SState) : Bool :=
  match s.current with
  | none => false
  | some c => s.aborted.contains c

/-- Events of one `useSearch` session: a `performSearch(q)` call running up to
its `await`, and the resolution or rejection of a previously issued backend
call.  A rejection carries `some msg` when the rejection value is an `Error`
with message `msg`, and `none` otherwise. -/
inductive SEvent where
  | start (q : List Char)
  | resolveOk (rs : List GRes)
  | resolveErr (msg : Option String)
deriving Repr

/-- The synchronous prefix of `performSearch(searchQuery)`: abort the pending
controller, install a fresh one, then either clear the state (empty trimmed
query, lines 42–47) or mark loading and dispatch the backend call. -/
def startSearch (s : SState) (q : List Char) : SState :=
  let s1 : SState :=
    { s with
      aborted := match s.current with
        | none => s.aborted
        | some c => c :: s.aborted
      current := some s.ctrlCounter
      ctrlCounter := s.ctrlCounter + 1 }
  if jsTrim q = [] then
    { s1 with results := [], isLoading := false, error := none }
  else
    { s1 with isLoading := true, error := none, dispatched := s1.dispatched ++ [q] }

/-- Continuation after `await invoke` resolves (lines 57–61 plus the
`finally`, lines 70–75): guarded by the aborted flag of the *current*
controller. -/
def resolveOkStep (s : SState) (rs : List GRes) : SState :=
  if abortedCurrent s then s
  else { s with results := rs, error := none, isLoading := false }

/-- Continuation after `await invoke` rejects (lines 62–69 plus the
`finally`): same guard; the error message defaults to `"Search failed"` when
the rejection value is not an `Error`. -/
def resolveErrStep (s : SState) (msg : Option String) : SState :=
  if abortedCurrent s then s
  else { s with error := some (msg.getD "Search failed"), results := [], isLoading := false }

def stepS (s : SState) : SEvent → SState
  | .start q => startSearch s q
  | .resolveOk rs => resolveOkStep s rs
  | .resolveErr msg => resolveErrStep s msg

/-- Initial hook state: `results = []`, `isLoading = false`, `error = null`,
no controller installed, nothing dispatched. -/
def initS : SState :=
  { ctrlCounter := 0, current := none, aborted := [], results := [],
    isLoading := false, error := none, dispatched := [] }

/-- Run a session from the initial hook state. -/
def runS (es : List SEvent) : SState :=
  es.foldl stepS initS

/-- Reachable-state invariant: every recorded controller id is older than the
counter, and the installed controller is fresh and unaborted. -/
def SWF (s : SState) : Prop :=
  (∀ c ∈ s.aborted, c < s.ctrlCounter) ∧
    (∀ c, s.current = some c → c < s.ctrlCounter ∧ c ∉ s.aborted)

/-! ## Grouping for display (`src/components/ResultGroup.tsx`, lines 44–85)

`groupedResults` buckets the ordered result list into a JavaScript `Map`
(which preserves first-insertion key order and appends within a bucket), then
emits one group per entry of the fixed `typeOrder` list, skipping absent or
empty buckets. -/

/-- One step of `results.forEach(...)` filling `typeMap`: append `r` to its
type's bucket, or create the bucket at the end. -/
def insertByType (m : List (RType × List GRes)) (r : GRes) : List (RType × List GRes) :=
  match m with
  | [] => [(r.rtype, [r])]
  | (t, l) :: rest =>
    if t = r.rtype then (t, l ++ [r]) :: rest else (t, l) :: insertByType rest r

/-- The filled `typeMap` after iterating over all results. -/
def buildTypeMap (rs : List GRes) : List (RType × List GRes) :=
  rs.foldl insertByType []

/-- Model of `typeMap.get(type)`. -/
def lookupType (t : RType) : List (RType × List GRes) → Option (List GRes)
  | [] => none
  | (t', l) :: rest => if t' = t then some l else lookupType t rest

/-- The fixed display order of groups (`typeOrder` in `ResultGroup.tsx`). -/
def typeOrder : List RType :=
  [.RecentFile, .File, .Application, .QuickAction, .Calculator, .Bookmark,
   .Clipboard, .WebSearch]

/-- Model of `groupedResults`: one `(type, bucket)` group per `typeOrder` entry whose
bucket exists and is non-empty (start indices omitted: they do not affect
ordering). -/
def groupedResults (rs : List GRes) : List (RType × List GRes) :=
  typeOrder.filterMap fun t =>
    match lookupType t (buildTypeMap rs) with
    | none => none
    | some l => if l = [] then none else some (t, l)

/-- The result rows of `flattenedItems` in display order (headers and
separators dropped): the concatenation of the displayed groups. -/
def flattenGroups (gs : List (RType × List GRes)) : List GRes :=
  gs.flatMap fun g => g.2

/-- Formalisation of claim C4 as stated: the concatenation of the displayed
groups, in display order, is in the same relative order as the input list —
for a permutation of the input this says it *is* the input list. -/
def groupingPreservesOrder (rs : List GRes) : Prop :=
  flattenGroups (groupedResults rs) = rs

/-- Concrete input for the C4 counterexample: a Calculator result ranked
before a File result (the merge order of §4.3, Calculator priority 90 being
above File). -/
def c4Input : List GRes := [⟨.Calculator, 0⟩, ⟨.File, 1⟩]

/-! ## The backend merge step, modelled from the spec

Modelled from the spec: the Query Orchestrator's merge (§4.3 step 6) lives in
the Rust backend behind `invoke('search_query')`, which is not under `src/`.
Following the spec's words: “concatenate all providers' result lists, not
first-come-first-served but ordered by a composite key: primary = provider
`priority` (descending), secondary = per-provider `score` (descending) within
the same provider. Ties broken by original provider-list order (stable).” -/

/-- A provider result as the merge sees it: display string and provider-local
score (spec §3). -/
structure SRes where
  title : String
  score : Nat
deriving DecidableEq, Repr

/-- A provider at merge time: its static priority and the result list it
returned for the current query (spec §4.1). -/
structure SProvider where
  priority : Nat
  results : List SRes
deriving DecidableEq, Repr

/-- Stable order on index-tagged providers: strictly higher priority first,
equal priorities kept in original list order. -/
def rProv (a b : Nat × SProvider) : Prop :=
  b.2.priority < a.2.priority ∨ (a.2.priority = b.2.priority ∧ a.1 ≤ b.1)

instance : DecidableRel rProv := fun a b => by unfold rProv; exact inferInstance

instance : IsTotal (Nat × SProvider) rProv := ⟨by intro a b; unfold rProv; omega⟩

instance : IsTrans (Nat × SProvider) rProv := ⟨by intro a b c; unfold rProv; omega⟩

/-- Stable order on index-tagged results of one provider: strictly higher
score first, equal scores kept in original order. -/
def rRes (a b : Nat × SRes) : Prop :=
  b.2.score < a.2.score ∨ (a.2.score = b.2.score ∧ a.1 ≤ b.1)

instance : DecidableRel rRes := fun a b => by unfold rRes; exact inferInstance

instance : IsTotal (Nat × SRes) rRes := ⟨by intro a b; unfold rRes; omega⟩

instance : IsTrans (Nat × SRes) rRes := ⟨by intro a b c; unfold rRes; omega⟩

/-- One merged entry, carrying the data the composite ordering speaks about:
the owning provider's original position and priority, and the result's
original position and score. -/
structure MergedItem where
  provIdx : Nat
  priority : Nat
  resIdx : Nat
  score : Nat
  title : String
deriving DecidableEq, Repr

/-- The merge: providers stably sorted by descending priority; each
provider's contribution stably sorted by descending score; concatenated. -/
def mergeFull (ps : List SProvider) : List MergedItem :=
  (List.insertionSort rProv ps.enum).flatMap fun pi =>
    (List.insertionSort rRes pi.2.results.enum).map fun ri =>
      { provIdx := pi.1, priority := pi.2.priority, resIdx := ri.1,
        score := ri.2.score, title := ri.2.title }

/-- The merged output list as the caller sees it. -/
def mergeResults (ps : List SProvider) : List String :=
  (mergeFull ps).map fun it => it.title

/-- The composite key order of §4.3 step 6: priority descending; ties by
original provider order; within one provider, score descending; ties by
original result order. -/
def comp (a b : MergedItem) : Prop :=
  b.priority < a.priority ∨
    (a.priority = b.priority ∧
      (a.provIdx < b.provIdx ∨
        (a.provIdx = b.provIdx ∧
          (b.score < a.score ∨ (a.score = b.score ∧ a.resIdx ≤ b.resIdx)))))

/-- The Calculator provider of the spec's scenario (§8). -/
def calcProvider : SProvider := ⟨90, [⟨"4", 100⟩]⟩

/-- The WebSearch provider of the spec's scenario (§8). -/
def webProvider : SProvider := ⟨1, [⟨"search the web", 1⟩]⟩

/-! ## Keyboard selection (`src/hooks/useKeyboard.ts`, lines 63–105) -/

/-- Model of `moveUp`: wrap to the last item when at (or below) the first. -/
def moveUp (itemCount : Nat) (prev : Int) : Int :=
  if itemCount = 0 then 0
  else if prev ≤ 0 then (itemCount : Int) - 1
  else prev - 1

/-- Model of `moveDown`: wrap to the first item when at (or past) the last. -/
def moveDown (itemCount : Nat) (prev : Int) : Int :=
  if itemCount = 0 then 0
  else if prev ≥ (itemCount : Int) - 1 then 0
  else prev + 1

/-- Model of `resetSelection`. -/
def resetSelection : Int := 0

/-- The three selection operations exposed by `useKeyboardSelection`. -/
inductive SelOp where
  | up
  | down
  | reset
deriving DecidableEq, Repr

def selStep (itemCount : Nat) (p : Int) : SelOp → Int
  | .up => moveUp itemCount p
  | .down => moveDown itemCount p
  | .reset => resetSelection

/-- Run a sequence of selection operations from a starting index. -/
def applySelOps (itemCount : Nat) (ops : List SelOp) (start : Int) : Int :=
  ops.foldl (selStep itemCount) start

/-! ## Highlighting (`src/utils/highlight.tsx`)

Strings are embedded as `List Char`; a rendered node is either a plain string,
a list of spans (flag `true` = a `text-primary` highlight span), or the
`null` node.  `text[index]` for an out-of-range index is `undefined`, which
React renders as nothing — modelled as `(cs.drop i).take 1 = []`. -/

/-- The span list built by the `indexes.forEach` loop of `highlightMatches`,
starting from accumulator `lastIndex`, plus the trailing plain span. -/
def spansAux (cs : List Char) (lastIndex : Nat) : List Nat → List (Bool × List Char)
  | [] => if lastIndex < cs.length then [(false, cs.drop lastIndex)] else []
  | i :: rest =>
    (if lastIndex < i then [(false, (cs.take i).drop lastIndex)] else []) ++
      ((true, (cs.drop i).take 1) :: spansAux cs (i + 1) rest)

/-- A rendered React node, as far as the highlight code produces one. -/
inductive RNode where
  | raw (s : List Char)
  | spans (l : List (Bool × List Char))
  | nullNode
deriving DecidableEq, Repr

/-- A `Fuzzysort.Result`: its `target` string and match `indexes`. -/
structure FMatch where
  target : List Char
  indexes : List Nat
deriving DecidableEq, Repr

/-- Model of `highlightMatches(result)`: `null` for a missing result or empty target;
the plain target when there are no match indexes; otherwise the span list. -/
def highlightMatches (m : Option FMatch) : RNode :=
  match m with
  | none => .nullNode
  | some f =>
    if f.target = [] then .nullNode
    else if f.indexes = [] then .raw f.target
    else .spans (spansAux f.target 0 f.indexes)

/-- Model of `highlightText(text, query)`, parameterised by the external
`Fuzzysort.single` matcher. -/
def highlightText (single : List Char → List Char → Option FMatch)
    (text query : List Char) : RNode :=
  if query = [] ∨ text = [] then .raw text
  else highlightMatches (single query text)

/-- The text content of a span list, concatenated in order. -/
def spansTextOf (l : List (Bool × List Char)) : List Char :=
  l.flatMap fun sp => sp.2

/-! ## Result execution (`useSearch.executeResult`, lines 103–112, and
`SearchBar.handleExecuteResult`) -/

/-- The user-visible UI state that `handleExecuteResult` can touch: whether
the window was closed (`handleClose`), the toast list (the app's user-facing
error channel, `ToastContainer`), and the developer-console log. -/
structure UIState where
  closed : Bool
  toasts : List String
  consoleErrors : List String
deriving DecidableEq, Repr

/-- Model of `executeResult(result)`: awaits `invoke('execute_result')`; on rejection
rethrows an `Error` whose message is the rejection's message, defaulting to
`"Failed to execute result"` when the rejection value is not an `Error`. -/
def executeResult (outcome : Except (Option String) Unit) : Except String Unit :=
  match outcome with
  | .ok _ => .ok ()
  | .error e => .error (e.getD "Failed to execute result")

/-- Model of `handleExecuteResult` in `SearchBar`: guard the selection, run
`executeResult` on the selected result; close the window on success; on
failure, catch and log `console.error('Failed to execute result:', error)` —
nothing else. -/
def handleExecuteResult (results : List GRes) (selectedIndex : Int)
    (backendExec : GRes → Except (Option String) Unit) (ui : UIState) : UIState :=
  if 0 < results.length ∧ 0 ≤ selectedIndex ∧ selectedIndex < results.length then
    match executeResult (backendExec (results.getD selectedIndex.toNat ⟨.File, 0⟩)) with
    | .ok _ => { ui with closed := true }
    | .error m => { ui with consoleErrors := ui.consoleErrors ++ [m] }
  else ui

/-- Formalisation of claim C5's second half as stated: whenever the selected
result's execution fails, the invoking UI layer surfaces the failure to the
user (a new toast appears). -/
def uiSurfacesExecuteFailure : Prop :=
  ∀ (results : List GRes) (i : Int) (be : GRes → Except (Option String) Unit)
    (ui : UIState) (m : Option String),
    0 < results.length → 0 ≤ i → i < results.length →
    be (results.getD i.toNat ⟨.File, 0⟩) = .error m →
    (handleExecuteResult results i be ui).toasts ≠ ui.toasts

/-! ## Debounce (`useSearch`'s effect, lines 81–98)

`setQuery` events are `(time, text)` pairs; each event clears the previous
150 ms timer and arms a new one, so an event's `performSearch` fires exactly
when no further event arrives within `DEBOUNCE_DELAY` of it. -/

def DEBOUNCE_DELAY : Nat := 150

/-- The `setQuery` events whose debounce timer actually fires. -/
def firedEvents : List (Nat × List Char) → List (Nat × List Char)
  | [] => []
  | [e] => [e]
  | e :: e' :: rest =>
    (if e.1 + DEBOUNCE_DELAY ≤ e'.1 then [e] else []) ++ firedEvents (e' :: rest)

/-- The backend `invoke('search_query')` calls triggered by a `setQuery`
event sequence (empty-trim queries never reach the backend). -/
def debouncedDispatches (evs : List (Nat × List Char)) : List (List Char) :=
  (firedEvents evs).filterMap fun e => if jsTrim e.2 = [] then none else some e.2

/-- The results list observed once every fired search resolved, given the
backend's (fixed, cache-backed) answer for each query. -/
def debouncedResults (backend : List Char → List GRes) (evs : List (Nat × List Char)) : List GRes :=
  (firedEvents evs).foldl (fun _ e => if jsTrim e.2 = [] then [] else backend e.2) []

/-- Formalisation of claim C2 as stated, for a given Recent-Files provider
result list: every empty-trim query returns exactly that list. -/
def emptyQueryReturnsRecents (recents : List GRes) : Prop :=
  ∀ q : List Char, jsTrim q = [] → (runS [SEvent.start q]).results = recents

/-- The stale-query interleaving for claim C1: query "a" dispatches, then
query "b" dispatches before "a" resolves; "b"'s backend call resolves first
(with result `rid 2`), then "a"'s resolves late (with result `rid 1`). -/
def c1Trace : List SEvent :=
  [.start ['a'], .start ['b'], .resolveOk [⟨.File, 2⟩], .resolveOk [⟨.File, 1⟩]]

theorem initS_wf : SWF initS := by
  constructor
  · intro c hc; simp [initS] at hc
  · intro c hc; simp [initS] at hc

theorem startSearch_wf {s : SState} (h : SWF s) (q : List Char) : SWF (startSearch s q) := by
  obtain ⟨hab, hcur⟩ := h
  unfold startSearch
  by_cases hq : jsTrim q = [] <;> simp only [hq, if_true, if_false, reduceIte] <;>
    (constructor
     · intro c hc
       cases hc' : s.current with
       | none => simp [hc'] at hc; exact Nat.lt_succ_of_lt (hab c hc)
       | some c0 =>
         simp [hc'] at hc
         rcases hc with rfl | hc
         · exact Nat.lt_succ_of_lt (hcur c (by rw [hc'])).1
         · exact Nat.lt_succ_of_lt (hab c hc)
     · intro c hc
       simp at hc
       subst hc
       constructor
       · exact Nat.lt_succ_self _
       · cases hc' : s.current with
         | none => simp [hc']; intro hmem; exact absurd (hab _ hmem) (by omega)
         | some c0 =>
           simp [hc']
           constructor
           · intro he; exact absurd he (by have := (hcur c0 (by rw [hc'])).1; omega)
           · intro hmem; exact absurd (hab _ hmem) (by omega))

theorem stepS_wf {s : SState} (h : SWF s) (e : SEvent) : SWF (stepS s e) := by
  cases e with
  | start q => exact startSearch_wf h q
  | resolveOk rs =>
    unfold stepS resolveOkStep
    by_cases hg : abortedCurrent s <;> simp only [hg, if_true, if_false, reduceIte]
    · exact h
    · exact ⟨h.1, fun c hc => h.2 c hc⟩
  | resolveErr msg =>
    unfold stepS resolveErrStep
    by_cases hg : abortedCurrent s <;> simp only [hg, if_true, if_false, reduceIte]
    · exact h
    · exact ⟨h.1, fun c hc => h.2 c hc⟩

theorem runS_wf (es : List SEvent) : SWF (runS es) := by
  unfold runS
  induction es using List.reverseRecOn with
  | nil => exact initS_wf
  | append_singleton es e ih =>
    rw [List.foldl_append]
    exact stepS_wf ih e

/-- Right after any `performSearch` prefix runs, the installed controller is
fresh, hence the post-await guard will pass. -/
theorem abortedCurrent_startSearch {s : SState} (h : SWF s) (q : List Char) :
    abortedCurrent (startSearch s q) = false := by
  have hwf := startSearch_wf h q
  unfold abortedCurrent
  cases hc : (startSearch s q).current with
  | none => rfl
  | some c =>
    have := (hwf.2 c hc).2
    simpa [List.contains, List.elem_eq_mem] using this

theorem runS_append (es es' : List SEvent) :
    runS (es ++ es') = es'.foldl stepS (runS es) := by
  unfold runS
  exact List.foldl_append stepS initS es es'

theorem startSearch_results_of_trim_empty {q : List Char} (s : SState) (h : jsTrim q = []) :
    (startSearch s q).results = [] ∧ (startSearch s q).error = none ∧
      (startSearch s q).isLoading = false ∧ (startSearch s q).dispatched = s.dispatched := by
  unfold startSearch
  simp [h]

theorem startSearch_dispatched_of_trim_ne {q : List Char} (s : SState) (h : jsTrim q ≠ []) :
    (startSearch s q).dispatched = s.dispatched ++ [q] := by
  unfold startSearch
  simp [h]

/-- Claim C1. The code violates the cancellation claim: `performSearch`'s
post-`await` guard re-reads `abortControllerRef.current` — by then the *newer*
query's controller, which was never aborted — so a stale resolution passes
the guard.  In the interleaving `c1Trace` (query "a", then query "b" before
"a" resolves; "b"'s backend call resolves first with the result `rid 2`, then
"a"'s resolves late with `rid 1`), the final observed results list is query
"a"'s `[rid 1]`, not query "b"'s `[rid 2]`: an older in-flight query
overwrites a newer query's results, contradicting the code's own comments
(`// Cancel any pending search`, `// Only update if this search wasn't
aborted`) and the spec. -/
theorem C1_stale_query_overwrites_newer :
    (runS c1Trace).results = [⟨RType.File, 1⟩] ∧
      ([⟨RType.File, 1⟩] : List GRes) ≠ [⟨RType.File, 2⟩] := by
  constructor
  · rfl
  · decide

/-- Claim C2, counterexample. On an empty (whitespace-only trimmed) query the
search operation clears the results to `[]` and dispatches nothing to the
backend, so in any session where the Recent-Files provider holds one recent
file it does *not* return that provider's results. -/
theorem C2_counterexample : ¬ emptyQueryReturnsRecents [⟨RType.RecentFile, 0⟩] := by
  intro h
  have h1 := h [' '] rfl
  have h2 : (runS [SEvent.start [' ']]).results = [] := rfl
  rw [h2] at h1
  exact absurd h1 (by decide)

/-- Claim C2, amended. For every query whose trimmed text is empty, the search
operation directly sets an empty result list (clearing error and loading)
and performs no backend invocation at all — it consults no provider, not
even Recent Files. -/
theorem C2_empty_query_clears (es : List SEvent) (q : List Char) (h : jsTrim q = []) :
    (runS (es ++ [SEvent.start q])).results = [] ∧
      (runS (es ++ [SEvent.start q])).error = none ∧
      (runS (es ++ [SEvent.start q])).isLoading = false ∧
      (runS (es ++ [SEvent.start q])).dispatched = (runS es).dispatched := by
  rw [runS_append]
  exact startSearch_results_of_trim_empty (runS es) h

theorem C2_empty_query_clears_witness :
    (jsTrim [' ', 'h', 'i', ' '] ≠ []) ∧ (jsTrim [' ', ' '] = []) ∧
      ((runS ([SEvent.start [' ', 'h', 'i', ' ']] ++ [SEvent.start [' ', ' ']])).results = [] ∧
        (runS ([SEvent.start [' ', 'h', 'i', ' ']] ++ [SEvent.start [' ', ' ']])).error = none ∧
        (runS ([SEvent.start [' ', 'h', 'i', ' ']] ++ [SEvent.start [' ', ' ']])).isLoading = false ∧
        (runS ([SEvent.start [' ', 'h', 'i', ' ']] ++ [SEvent.start [' ', ' ']])).dispatched
          = (runS [SEvent.start [' ', 'h', 'i', ' ']]).dispatched) :=
  ⟨by decide, by decide, C2_empty_query_clears [SEvent.start [' ', 'h', 'i', ' ']] [' ', ' '] (by decide)⟩

/-- Claim C6. The query operation cannot throw: `performSearch` is embedded as
a total transition function, so every trace yields a state (its promise
resolves).  When a dispatched backend call (`dispatched` gains `q`) rejects,
the `catch` records the human-readable message (defaulting to
`"Search failed"` for a non-`Error` rejection) and degrades the results to
the empty list, with loading cleared by the `finally`. -/
theorem C6_rejection_degrades (es : List SEvent) (q : List Char) (msg : Option String)
    (h : jsTrim q ≠ []) :
    (runS (es ++ [SEvent.start q])).dispatched = (runS es).dispatched ++ [q] ∧
      (runS (es ++ [SEvent.start q, SEvent.resolveErr msg])).results = [] ∧
      (runS (es ++ [SEvent.start q, SEvent.resolveErr msg])).error
        = some (msg.getD "Search failed") ∧
      (runS (es ++ [SEvent.start q, SEvent.resolveErr msg])).isLoading = false := by
  have hwf : SWF (runS es) := runS_wf es
  have hguard : abortedCurrent (startSearch (runS es) q) = false :=
    abortedCurrent_startSearch hwf q
  constructor
  · rw [runS_append]
    exact startSearch_dispatched_of_trim_ne (runS es) h
  · rw [runS_append]
    simp only [List.foldl_cons, List.foldl_nil, stepS]
    unfold resolveErrStep
    rw [hguard]
    simp

theorem C6_rejection_degrades_witness :
    (jsTrim ['d'] ≠ []) ∧
      ((runS ([] ++ [SEvent.start ['d']])).dispatched = (runS []).dispatched ++ [['d']] ∧
        (runS ([] ++ [SEvent.start ['d'], SEvent.resolveErr (some "boom")])).results = [] ∧
        (runS ([] ++ [SEvent.start ['d'], SEvent.resolveErr (some "boom")])).error
          = some ((some "boom").getD "Search failed") ∧
        (runS ([] ++ [SEvent.start ['d'], SEvent.resolveErr (some "boom")])).isLoading = false) :=
  ⟨by decide, C6_rejection_degrades [] ['d'] (some "boom") (by decide)⟩

theorem lookupType_insertByType (m : List (RType × List GRes)) (r : GRes) (t : RType) :
    lookupType t (insertByType m r) =
      if r.rtype = t then some ((lookupType t m).getD [] ++ [r]) else lookupType t m := by
  induction m with
  | nil =>
    by_cases h : r.rtype = t
    · simp [insertByType, lookupType, h]
    · simp [insertByType, lookupType, h]
  | cons hd tl ih =>
    obtain ⟨t', l⟩ := hd
    by_cases h1 : t' = r.rtype
    · subst h1
      by_cases h2 : r.rtype = t
      · subst h2
        simp [insertByType, lookupType]
      · simp [insertByType, lookupType, h2]
    · by_cases h2 : t' = t
      · subst h2
        have h3 : ¬ r.rtype = t' := fun hc => h1 hc.symm
        simp [insertByType, lookupType, h1, h3]
      · simp [insertByType, lookupType, h1, h2, ih]

theorem lookupType_foldl_getD (rs : List GRes) :
    ∀ (m : List (RType × List GRes)) (t : RType),
      (lookupType t (rs.foldl insertByType m)).getD [] =
        (lookupType t m).getD [] ++ rs.filter (fun r => r.rtype = t) := by
  induction rs with
  | nil => intro m t; simp
  | cons r rs' ih =>
    intro m t
    rw [List.foldl_cons, ih, lookupType_insertByType]
    by_cases h : r.rtype = t
    · simp [h]
    · simp [h]

theorem lookupType_foldl_none (rs : List GRes) :
    ∀ (m : List (RType × List GRes)) (t : RType),
      lookupType t (rs.foldl insertByType m) = none ↔
        (lookupType t m = none ∧ rs.filter (fun r => r.rtype = t) = []) := by
  induction rs with
  | nil => intro m t; simp
  | cons r rs' ih =>
    intro m t
    rw [List.foldl_cons, ih, lookupType_insertByType]
    by_cases h : r.rtype = t
    · simp [h]
    · simp [h]

theorem groupResults_eq (rs : List GRes) :
    groupedResults rs = typeOrder.filterMap fun t =>
      if rs.filter (fun r => r.rtype = t) = [] then none
      else some (t, rs.filter (fun r => r.rtype = t)) := by
  unfold groupedResults buildTypeMap
  congr 1
  funext t
  cases hopt : lookupType t (rs.foldl insertByType []) with
  | none =>
    have := (lookupType_foldl_none rs [] t).mp hopt
    simp [this.2]
  | some l =>
    have hne : ¬ (lookupType t (rs.foldl insertByType []) = none) := by rw [hopt]; simp
    rw [lookupType_foldl_none rs [] t] at hne
    have hfne : rs.filter (fun r => r.rtype = t) ≠ [] := by
      intro hc; exact hne ⟨by simp [lookupType], hc⟩
    have hl : l = rs.filter (fun r => r.rtype = t) := by
      have := lookupType_foldl_getD rs [] t
      rw [hopt] at this
      simpa [lookupType] using this
    subst hl
    simp [hfne]

theorem flattenGroups_filterMap (f : RType → List GRes) (ts : List RType) :
    flattenGroups (ts.filterMap fun t => if f t = [] then none else some (t, f t)) =
      ts.flatMap f := by
  induction ts with
  | nil => rfl
  | cons t ts' ih =>
    rw [List.filterMap_cons, List.flatMap_cons]
    split_ifs with h
    · rw [ih, h, List.nil_append]
    · unfold flattenGroups at ih ⊢
      rw [List.flatMap_cons, ih]

theorem flattenGroups_groupResults (rs : List GRes) :
    flattenGroups (groupedResults rs) =
      typeOrder.flatMap fun t => rs.filter fun r => r.rtype = t := by
  rw [groupResults_eq]
  exact flattenGroups_filterMap (fun t => rs.filter fun r => r.rtype = t) typeOrder

theorem count_filter_rtype (rs : List GRes) (a : GRes) (t : RType) :
    List.count a (rs.filter fun r => r.rtype = t) =
      if a.rtype = t then List.count a rs else 0 := by
  split_ifs with h
  · exact List.count_filter (by simp [h])
  · refine List.count_eq_zero.mpr ?_
    intro hmem
    rw [List.mem_filter] at hmem
    exact h (by simpa using hmem.2)

theorem flattenGroups_groupResults_perm (rs : List GRes) :
    List.Perm (flattenGroups (groupedResults rs)) rs := by
  rw [flattenGroups_groupResults]
  refine List.perm_iff_count.mpr fun a => ?_
  rw [List.flatMap_def, List.count_flatten, List.map_map]
  obtain ⟨ty, id⟩ := a
  cases ty <;>
    simp [typeOrder, count_filter_rtype]

/-- Claim C4, counterexample. For the input `[Calculator result, File result]`
(the merge order of §4.3: Calculator priority 90 ranks before File), the
concatenation of the displayed groups is `[File result, Calculator result]` —
`groupedResults` orders groups by the fixed `typeOrder` list, in which FILES
precedes CALCULATOR, so the display does *not* preserve the input's
priority/score order across groups. -/
theorem C4_counterexample :
    ¬ groupingPreservesOrder c4Input ∧
      flattenGroups (groupedResults c4Input) = [⟨RType.File, 1⟩, ⟨RType.Calculator, 0⟩] := by
  constructor
  · intro h
    have h2 : flattenGroups (groupedResults c4Input) = [⟨RType.File, 1⟩, ⟨RType.Calculator, 0⟩] := by
      rfl
    rw [groupingPreservesOrder, h2] at h
    exact absurd h (by decide)
  · rfl

/-- Claim C4, amended. Grouping for display preserves the relative
priority/score order *within* each group — each displayed group is exactly
the input list filtered to its `resultType`, in input order — but *across*
groups the display uses the fixed order `typeOrder` (RecentFile, File,
Application, QuickAction, Calculator, Bookmark, Clipboard, WebSearch): the
concatenation of the displayed groups is the input re-bucketed in that fixed
type order, not the input's own order. -/
theorem C4_grouping_fixed_type_order (rs : List GRes) :
    flattenGroups (groupedResults rs) =
        (typeOrder.flatMap fun t => rs.filter fun r => r.rtype = t) ∧
      ∀ g ∈ groupedResults rs, g.2 = rs.filter fun r => r.rtype = g.1 := by
  refine ⟨flattenGroups_groupResults rs, ?_⟩
  intro g hg
  rw [groupResults_eq] at hg
  rw [List.mem_filterMap] at hg
  obtain ⟨t, _, hgt⟩ := hg
  split_ifs at hgt
  cases hgt
  rfl

theorem C4_grouping_fixed_type_order_witness :
    (flattenGroups (groupedResults c4Input) =
        (typeOrder.flatMap fun t => c4Input.filter fun r => r.rtype = t)) ∧
      (RType.File, ([⟨RType.File, 1⟩] : List GRes)) ∈ groupedResults c4Input ∧
      (RType.File, ([⟨RType.File, 1⟩] : List GRes)).2
        = c4Input.filter fun r => r.rtype = (RType.File, ([⟨RType.File, 1⟩] : List GRes)).1 :=
  ⟨(C4_grouping_fixed_type_order c4Input).1, by decide,
    (C4_grouping_fixed_type_order c4Input).2 _ (by decide)⟩

/-- Claim C8. A completed search replaces the results list wholesale with the
freshly returned list (the entire React state field is overwritten, never
patched), and the display layer's grouping returns a permutation consisting
of exactly the returned result values — no operation in the embedded frontend
mutates a previously returned result. -/
theorem C8_results_recreated (es : List SEvent) (q : List Char) (rs : List GRes)
    (h : jsTrim q ≠ []) :
    (runS (es ++ [SEvent.start q])).dispatched = (runS es).dispatched ++ [q] ∧
      (runS (es ++ [SEvent.start q, SEvent.resolveOk rs])).results = rs ∧
      List.Perm (flattenGroups (groupedResults rs)) rs := by
  refine ⟨?_, ?_, flattenGroups_groupResults_perm rs⟩
  · rw [runS_append]
    exact startSearch_dispatched_of_trim_ne (runS es) h
  · have hwf : SWF (runS es) := runS_wf es
    have hguard : abortedCurrent (startSearch (runS es) q) = false :=
      abortedCurrent_startSearch hwf q
    rw [runS_append]
    simp only [List.foldl_cons, List.foldl_nil, stepS]
    unfold resolveOkStep
    rw [hguard]
    simp

theorem C8_results_recreated_witness :
    (jsTrim ['d'] ≠ []) ∧
      ((runS ([] ++ [SEvent.start ['d']])).dispatched = (runS []).dispatched ++ [['d']] ∧
        (runS ([] ++ [SEvent.start ['d'], SEvent.resolveOk [⟨RType.File, 7⟩]])).results
          = [⟨RType.File, 7⟩] ∧
        List.Perm (flattenGroups (groupedResults [⟨RType.File, 7⟩])) [⟨RType.File, 7⟩]) :=
  ⟨by decide, C8_results_recreated [] ['d'] [⟨RType.File, 7⟩] (by decide)⟩

theorem applySelOps_bounds (ic : Nat) (h : 1 ≤ ic) (ops : List SelOp) :
    ∀ p : Int, 0 ≤ p → p ≤ (ic : Int) - 1 →
      0 ≤ applySelOps ic ops p ∧ applySelOps ic ops p ≤ (ic : Int) - 1 := by
  induction ops with
  | nil => intro p h0 h1; exact ⟨h0, h1⟩
  | cons op ops ih =>
    intro p h0 h1
    unfold applySelOps
    rw [List.foldl_cons]
    apply ih
    all_goals
      cases op <;> simp only [selStep, moveUp, moveDown, resetSelection] <;>
        (try split_ifs) <;> omega

/-- Claim C9. Starting from the default initial index 0, any sequence of
`moveUp`/`moveDown`/`resetSelection` calls keeps the selected index inside
`[0, itemCount − 1]` when `itemCount ≥ 1`; `moveDown` at the last index wraps
to 0 and `moveUp` at 0 wraps to the last index; and when `itemCount = 0`
every operation returns index 0 from any previous index. -/
theorem C9_selection_bounds (ic : Nat) (ops : List SelOp) (h : 1 ≤ ic) :
    (0 ≤ applySelOps ic ops 0 ∧ applySelOps ic ops 0 ≤ (ic : Int) - 1) ∧
      moveDown ic ((ic : Int) - 1) = 0 ∧
      moveUp ic 0 = (ic : Int) - 1 ∧
      (∀ p : Int, moveUp 0 p = 0 ∧ moveDown 0 p = 0 ∧ resetSelection = 0) := by
  refine ⟨applySelOps_bounds ic h ops 0 le_rfl (by omega), ?_, ?_, ?_⟩
  · unfold moveDown; split_ifs <;> omega
  · unfold moveUp; split_ifs <;> omega
  · intro p
    refine ⟨?_, ?_, rfl⟩ <;> simp [moveUp, moveDown]

theorem C9_selection_bounds_witness :
    (1 ≤ 3) ∧
      ((0 ≤ applySelOps 3 [SelOp.up, SelOp.down, SelOp.down] 0 ∧
          applySelOps 3 [SelOp.up, SelOp.down, SelOp.down] 0 ≤ (3 : Int) - 1) ∧
        moveDown 3 ((3 : Int) - 1) = 0 ∧
        moveUp 3 0 = (3 : Int) - 1 ∧
        (∀ p : Int, moveUp 0 p = 0 ∧ moveDown 0 p = 0 ∧ resetSelection = 0)) :=
  ⟨by decide, C9_selection_bounds 3 [SelOp.up, SelOp.down, SelOp.down] (by decide)⟩

/-- Claim C5, counterexample. `executeResult` does rethrow an `Error` carrying
the failure message, but the UI layer that invokes it does not surface the
failure to the user: for a selected result whose execution fails with
"File not found", `handleExecuteResult` leaves every user-visible part of the
state untouched (no toast appears, the window is not closed) and only appends
to the developer console, refuting `uiSurfacesExecuteFailure`. -/
theorem C5_counterexample :
    executeResult (Except.error (some "File not found")) = Except.error "File not found" ∧
      ¬ uiSurfacesExecuteFailure := by
  refine ⟨rfl, fun h => ?_⟩
  have hne := h [⟨.File, 0⟩] 0 (fun _ => .error (some "File not found"))
    ⟨false, [], []⟩ (some "File not found") (by decide) (by decide) (by decide) rfl
  exact hne rfl

/-- Claim C5, amended. When the selected result's execution fails,
`executeResult` rethrows an `Error` carrying the human-readable message
(defaulting to "Failed to execute result"), so the failure is propagated to
its caller and never swallowed at that layer; but the invoking UI layer
(`handleExecuteResult` in `SearchBar`) catches the rethrown error and only
logs it to the developer console — toasts and the window state are left
unchanged, so no user-facing surfacing happens there. -/
theorem C5_execute_error_console_only (results : List GRes) (i : Int)
    (be : GRes → Except (Option String) Unit) (ui : UIState) (e : Option String)
    (h1 : 0 < results.length) (h2 : 0 ≤ i) (h3 : i < results.length)
    (h4 : be (results.getD i.toNat ⟨.File, 0⟩) = .error e) :
    executeResult (be (results.getD i.toNat ⟨.File, 0⟩))
        = .error (e.getD "Failed to execute result") ∧
      handleExecuteResult results i be ui =
        { ui with consoleErrors := ui.consoleErrors ++ [e.getD "Failed to execute result"] } := by
  constructor
  · rw [h4]; rfl
  · unfold handleExecuteResult
    rw [if_pos ⟨h1, h2, h3⟩, h4]
    rfl

theorem C5_execute_error_console_only_witness :
    (0 < [(⟨.File, 0⟩ : GRes)].length) ∧ ((0 : Int) ≤ 0) ∧
      ((0 : Int) < [(⟨.File, 0⟩ : GRes)].length) ∧
      ((fun _ : GRes => (Except.error (some "File not found") : Except (Option String) Unit))
          ([(⟨.File, 0⟩ : GRes)].getD (0 : Int).toNat ⟨.File, 0⟩) = .error (some "File not found")) ∧
      (executeResult
          ((fun _ : GRes => (Except.error (some "File not found") : Except (Option String) Unit))
            ([(⟨.File, 0⟩ : GRes)].getD (0 : Int).toNat ⟨.File, 0⟩))
          = .error ((some "File not found").getD "Failed to execute result") ∧
        handleExecuteResult [(⟨.File, 0⟩ : GRes)] 0
            (fun _ => .error (some "File not found")) ⟨false, [], []⟩ =
          { (⟨false, [], []⟩ : UIState) with
            consoleErrors := ([] : List String) ++ [(some "File not found").getD "Failed to execute result"] }) :=
  ⟨by decide, by decide, by decide, rfl,
    C5_execute_error_console_only [⟨.File, 0⟩] 0 (fun _ => .error (some "File not found"))
      ⟨false, [], []⟩ (some "File not found") (by decide) (by decide) (by decide) rfl⟩

/-- Claim C7. Two `setQuery` events with identical text where the second
arrives within the 150 ms debounce window: only the second event's timer
fires, so the backend `invoke('search_query')` is triggered exactly once, and
the observed results list is the single (hence byte-identical for both
issuances) backend answer for that query. -/
theorem C7_debounce_single_dispatch (t1 t2 : Nat) (q : List Char)
    (backend : List Char → List GRes)
    (h1 : t2 < t1 + DEBOUNCE_DELAY) (h2 : jsTrim q ≠ []) :
    firedEvents [(t1, q), (t2, q)] = [(t2, q)] ∧
      debouncedDispatches [(t1, q), (t2, q)] = [q] ∧
      debouncedResults backend [(t1, q), (t2, q)] = backend q := by
  have hf : firedEvents [(t1, q), (t2, q)] = [(t2, q)] := by
    simp [firedEvents, show ¬ (t1 + DEBOUNCE_DELAY ≤ t2) from by omega]
  refine ⟨hf, ?_, ?_⟩
  · unfold debouncedDispatches
    rw [hf]
    simp [h2]
  · unfold debouncedResults
    rw [hf]
    simp [h2]

theorem C7_debounce_single_dispatch_witness :
    (100 < 0 + DEBOUNCE_DELAY) ∧ (jsTrim ['d'] ≠ []) ∧
      (firedEvents [(0, ['d']), (100, ['d'])] = [(100, ['d'])] ∧
        debouncedDispatches [(0, ['d']), (100, ['d'])] = [['d']] ∧
        debouncedResults (fun _ => [⟨RType.File, 7⟩]) [(0, ['d']), (100, ['d'])]
          = [⟨RType.File, 7⟩]) :=
  ⟨by decide, by decide,
    C7_debounce_single_dispatch 0 100 ['d'] (fun _ => [⟨RType.File, 7⟩])
      (by decide) (by decide)⟩

theorem spansTextOf_spansAux (cs : List Char) (idxs : List Nat) :
    ∀ last : Nat, List.Pairwise (· < ·) idxs → (∀ i ∈ idxs, i < cs.length) →
      (∀ i ∈ idxs, last ≤ i) →
      spansTextOf (spansAux cs last idxs) = cs.drop last := by
  induction idxs with
  | nil =>
    intro last _ _ _
    unfold spansAux spansTextOf
    split_ifs with hlt
    · simp
    · simp [List.drop_eq_nil_of_le (Nat.le_of_not_lt hlt)]
  | cons i rest ih =>
    intro last hp hbound hge
    have hi : i < cs.length := hbound i (List.mem_cons_self i rest)
    have hli : last ≤ i := hge i (List.mem_cons_self i rest)
    have hp' := List.pairwise_cons.mp hp
    have ih' := ih (i + 1) hp'.2 (fun j hj => hbound j (List.mem_cons_of_mem i hj))
      (fun j hj => hp'.1 j hj)
    unfold spansAux
    unfold spansTextOf at ih' ⊢
    rw [List.flatMap_append, List.flatMap_cons, ih']
    have hdrop1 : cs.drop (i + 1) = (cs.drop i).drop 1 := by
      rw [List.drop_drop, Nat.add_comm]
    have hsplit : (cs.drop i).take 1 ++ cs.drop (i + 1) = cs.drop i := by
      rw [hdrop1, List.take_append_drop]
    by_cases hlast : last < i
    · rw [if_pos hlast]
      have hlen : last ≤ (cs.take i).length := by
        rw [List.length_take]
        omega
      conv_rhs => rw [← List.take_append_drop i cs, List.drop_append_of_le_length hlen]
      simp only [List.flatMap_cons, List.flatMap_nil, List.append_nil, List.append_assoc]
      rw [hsplit]
    · rw [if_neg hlast]
      have heq : last = i := by omega
      subst heq
      simp only [List.flatMap_nil, List.nil_append]
      exact hsplit

theorem spansAux_highlight_spans (cs : List Char) (idxs : List Nat) :
    ∀ last : Nat,
      ((spansAux cs last idxs).filter (fun sp => sp.1)).map (fun sp => sp.2)
        = idxs.map (fun i => (cs.drop i).take 1) := by
  induction idxs with
  | nil =>
    intro last
    unfold spansAux
    split_ifs <;> simp
  | cons i rest ih =>
    intro last
    unfold spansAux
    rw [List.filter_append]
    split_ifs with h <;> simp [ih (i + 1)]

/-- Claim C10. `highlightText` returns the input text unchanged whenever the
query or the text is empty; and for a fuzzysort match over target `cs` with
strictly increasing in-range match `indexes`, `highlightMatches` emits a span
list whose concatenated text content reproduces the target character for
character, whose highlighted spans are exactly the characters at the match
indexes in order (every other span is a plain, non-highlight span), each a
one-character span holding the target character at that index. -/
theorem C10_highlight_preserves_text (single : List Char → List Char → Option FMatch)
    (text query cs : List Char) (idxs : List Nat)
    (h1 : List.Pairwise (· < ·) idxs) (h2 : ∀ i ∈ idxs, i < cs.length) :
    (query = [] ∨ text = [] → highlightText single text query = RNode.raw text) ∧
      (∀ f : FMatch, f.target = cs → f.indexes = idxs → cs ≠ [] → idxs ≠ [] →
        highlightMatches (some f) = RNode.spans (spansAux cs 0 idxs)) ∧
      spansTextOf (spansAux cs 0 idxs) = cs ∧
      ((spansAux cs 0 idxs).filter (fun sp => sp.1)).map (fun sp => sp.2)
        = idxs.map (fun i => (cs.drop i).take 1) ∧
      ∀ i ∈ idxs, (cs.drop i).take 1 = [cs.getD i ' '] := by
  refine ⟨?_, ?_, ?_, spansAux_highlight_spans cs idxs 0, ?_⟩
  · intro h
    unfold highlightText
    rw [if_pos h]
  · intro f ht hidx hcs hi
    subst ht hidx
    simp [highlightMatches, hcs, hi]
  · have := spansTextOf_spansAux cs idxs 0 h1 h2 (fun i _ => Nat.zero_le i)
    simpa using this
  · intro i hi
    have hilt := h2 i hi
    rw [List.drop_eq_getElem_cons hilt]
    simp only [List.take_succ_cons, List.take_zero]
    rw [List.getD_eq_getElem?_getD, List.getElem?_eq_getElem hilt]
    simp

theorem C10_highlight_preserves_text_witness :
    List.Pairwise (· < ·) [1, 3] ∧ (∀ i ∈ [1, 3], i < (['a', 'b', 'c', 'd'] : List Char).length) ∧
      ((([] : List Char) = [] ∨ (['x'] : List Char) = []) →
          highlightText (fun _ _ => none) ['x'] [] = RNode.raw ['x']) ∧
      ((∀ f : FMatch, f.target = ['a', 'b', 'c', 'd'] → f.indexes = [1, 3] →
          (['a', 'b', 'c', 'd'] : List Char) ≠ [] → ([1, 3] : List Nat) ≠ [] →
          highlightMatches (some f) = RNode.spans (spansAux ['a', 'b', 'c', 'd'] 0 [1, 3])) ∧
        spansTextOf (spansAux ['a', 'b', 'c', 'd'] 0 [1, 3]) = ['a', 'b', 'c', 'd'] ∧
        ((spansAux ['a', 'b', 'c', 'd'] 0 [1, 3]).filter (fun sp => sp.1)).map (fun sp => sp.2)
          = ([1, 3] : List Nat).map (fun i => ((['a', 'b', 'c', 'd'] : List Char).drop i).take 1) ∧
        ∀ i ∈ ([1, 3] : List Nat),
          ((['a', 'b', 'c', 'd'] : List Char).drop i).take 1
            = [(['a', 'b', 'c', 'd'] : List Char).getD i ' ']) :=
  ⟨by decide, by decide,
    (C10_highlight_preserves_text (fun _ _ => none) ['x'] [] ['a', 'b', 'c', 'd'] [1, 3]
      (by decide) (by decide)).1,
    (C10_highlight_preserves_text (fun _ _ => none) ['x'] [] ['a', 'b', 'c', 'd'] [1, 3]
      (by decide) (by decide)).2⟩

theorem mergeFull_pairwise (ps : List SProvider) : List.Pairwise comp (mergeFull ps) := by
  unfold mergeFull
  rw [List.flatMap_def, List.pairwise_flatten]
  constructor
  · intro l hl
    rw [List.mem_map] at hl
    obtain ⟨pi, hpi, rfl⟩ := hl
    rw [List.pairwise_map]
    have hs : List.Pairwise rRes (List.insertionSort rRes pi.2.results.enum) :=
      List.sorted_insertionSort rRes pi.2.results.enum
    refine hs.imp ?_
    intro a b hab
    unfold rRes at hab
    unfold comp
    exact Or.inr ⟨rfl, Or.inr ⟨rfl, hab⟩⟩
  · have h1 : List.Pairwise rProv (List.insertionSort rProv ps.enum) :=
      List.sorted_insertionSort rProv ps.enum
    have hlt : List.Pairwise (fun (a b : Nat × SProvider) => a.1 < b.1) ps.enum := by
      have hr := List.pairwise_lt_range ps.length
      rw [← List.enum_map_fst ps] at hr
      rw [List.pairwise_map] at hr
      exact hr
    have hne : List.Pairwise (fun (a b : Nat × SProvider) => a.1 ≠ b.1) ps.enum :=
      hlt.imp fun h => Nat.ne_of_lt h
    have hperm := List.perm_insertionSort rProv ps.enum
    have hne' : List.Pairwise (fun (a b : Nat × SProvider) => a.1 ≠ b.1)
        (List.insertionSort rProv ps.enum) :=
      (hperm.pairwise_iff fun hab => hab.symm).mpr hne
    have h12 := h1.and hne'
    rw [List.pairwise_map]
    refine h12.imp ?_
    rintro a b ⟨hab, hne2⟩
    intro x hx y hy
    rw [List.mem_map] at hx hy
    obtain ⟨ra, hra, rfl⟩ := hx
    obtain ⟨rb, hrb, rfl⟩ := hy
    unfold rProv at hab
    unfold comp
    rcases hab with h | ⟨heq, hle⟩
    · exact Or.inl h
    · exact Or.inr ⟨heq, Or.inl (lt_of_le_of_ne hle hne2)⟩

/-- Claim C3. Modelled from the spec (the merge runs in the backend, not under
`src/`): the merged output is ordered by the composite key — provider
priority descending first; among equal priorities, original provider-list
order (stability); within one provider, score descending with ties kept in
original result order — and, for the spec's scenario, providers
{Calculator: priority 90, results ["4" score 100]} and {WebSearch: priority
1, results ["search the web" score 1]} merge to `["4", "search the web"]`. -/
theorem C3_merge_composite_order :
    (∀ ps : List SProvider, List.Pairwise comp (mergeFull ps)) ∧
      mergeResults [calcProvider, webProvider] = ["4", "search the web"] :=
  ⟨mergeFull_pairwise, by rfl⟩

end BetterFinder
